import Mathlib

/-!
Shallow embedding of the retrieval-and-query-classification subsystem of the
voice-journal Telegram bot (source: `src/unnamed/part_000`, which contains the
voice-journal `index.js` variant, and `src/lib/telegram-helpers.js`).

Modelling conventions:
* JavaScript numbers holding Unix timestamps are modelled as `Int`; the JS
  `NaN` produced by an invalid `Date` is modelled as `none` in `Option Int`
  (`NaN` is falsy, like `0`, which `truthyNum` captures).
* Vector components are modelled as exact rationals; `Math.sqrt` is modelled
  by `ratSqrt`, a rational approximation that is exact on perfect squares and
  shares with the float implementation the property that the square root of a
  positive number is positive and the square root of zero is zero.
* A non-finite float result (`NaN` from a zero denominator) is modelled as
  `none` in `Option ℚ`.
* External collaborators (completion service, embedding service, Telegram
  transport, SQLite row storage) appear as explicit parameters: the completion
  reply is an `Except` value, the embedding service is a function argument,
  and database tables are lists of rows in fetch order.
-/

/-- A row of the `transcripts` SQLite table (`src/unnamed/part_000`, schema at
lines 421-432).  The `embedding BLOB` column is modelled by the decoded vector
it stores (`Option`: `NULL` or a vector); the byte-level codec is modelled
separately for the round-trip claim. -/
structure Transcript where
  message_id : Int
  voice_file_id : String
  r2_key : String
  transcript : String
  created_at : Int
  duration : Int
  embedding : Option (List ℚ)
deriving DecidableEq

/-- Truthiness of a JS number-or-NaN: `0` and `NaN` are falsy, every other
number is truthy. -/
def truthyNum (v : Option Int) : Bool :=
  match v with
  | none => false
  | some n => n != 0

/-- Truthiness of a JS string-or-absent field: `undefined`, `null` and the
empty string are falsy. -/
def truthyStr (s : Option String) : Bool :=
  match s with
  | none => false
  | some v => v != ""

/-- Proleptic-Gregorian leap-year test over integer (astronomically numbered)
years, as ECMAScript time computations use; divisibility is flavour-agnostic
for `Int.emod`. -/
def isLeapYear (y : Int) : Bool :=
  y % 4 == 0 && (y % 100 != 0 || y % 400 == 0)

/-- Number of days in month `m` (1-12) of year `y`. -/
def daysInMonth (y : Int) (m : Nat) : Nat :=
  match m with
  | 1 => 31
  | 2 => if isLeapYear y then 29 else 28
  | 3 => 31
  | 4 => 30
  | 5 => 31
  | 6 => 30
  | 7 => 31
  | 8 => 31
  | 9 => 30
  | 10 => 31
  | 11 => 30
  | 12 => 31
  | _ => 0

/-- Days from the Unix epoch to the proleptic-Gregorian date `y-m-d`
(the standard era-based civil-calendar formula, with floor division so that
negative years are handled correctly). -/
def daysFromCivil (y : Int) (m d : Nat) : Int :=
  let y2 : Int := if m ≤ 2 then y - 1 else y
  let era : Int := Int.fdiv y2 400
  let yoe : Int := y2 - era * 400
  let mp : Nat := (m + 9) % 12
  let doy : Nat := (153 * mp + 2) / 5 + (d - 1)
  let doe : Int := yoe * 365 + Int.fdiv yoe 4 - Int.fdiv yoe 100 + (doy : Int)
  era * 146097 + doe - 719468

/-- Unix epoch seconds of `y-m-d` at `00:00:00` UTC. -/
def epochSecondsOfDate (y : Int) (m d : Nat) : Int :=
  daysFromCivil y m d * 86400

/-- Decimal value of a digit character. -/
def digitVal (c : Char) : Nat := c.toNat - 48

/-- Numeric value of a digit string. -/
def digitsToNat (l : List Char) : Nat :=
  l.foldl (fun acc c => acc * 10 + digitVal c) 0

/-- The ECMA-262 date-only production starting with a `ydigits`-digit year
(`4` for plain years, `6` for expanded years): `Y⁺`, `Y⁺-MM` or `Y⁺-MM-DD`,
yielding year, month and day with absent fields defaulted to 1. -/
def parseYMD (ydigits : Nat) (l : List Char) : Option (Nat × Nat × Nat) :=
  let ys := l.take ydigits
  let rest := l.drop ydigits
  if ys.length = ydigits ∧ ys.all Char.isDigit then
    match rest with
    | [] => some (digitsToNat ys, 1, 1)
    | ['-', m1, m2] =>
      if m1.isDigit && m2.isDigit then some (digitsToNat ys, digitsToNat [m1, m2], 1)
      else none
    | ['-', m1, m2, '-', d1, d2] =>
      if m1.isDigit && m2.isDigit && d1.isDigit && d2.isDigit then
        some (digitsToNat ys, digitsToNat [m1, m2], digitsToNat [d1, d2])
      else none
    | _ => none
  else none

/-- The ECMA-262 Date Time String Format date-only forms: `YYYY`, `YYYY-MM`,
`YYYY-MM-DD`, and the sign-prefixed expanded-year variants `±YYYYYY[-MM[-DD]]`
(`-000000` being explicitly invalid). -/
def parseDateOnly (l : List Char) : Option (Int × Nat × Nat) :=
  match l with
  | '+' :: rest => (parseYMD 6 rest).map (fun p => ((p.1 : Int), p.2.1, p.2.2))
  | '-' :: rest =>
    match parseYMD 6 rest with
    | some (y, m, d) => if y = 0 then none else some (-(y : Int), m, d)
    | none => none
  | _ => (parseYMD 4 l).map (fun p => ((p.1 : Int), p.2.1, p.2.2))

/-- Models `Math.floor(new Date(s + "T00:00:00Z").getTime() / 1000)` as used
by `parseDateFilter` (`src/unnamed/part_000` lines 593-639).  Because the
code appends `T00:00:00Z`, `s` is a valid instance of the ECMA-262 Date Time
String Format exactly when it is one of the date-only forms; out-of-bounds
month/day values and time values beyond the mandated ±8.64e15 ms range are
invalid dates (`NaN`, modelled as `none`), as is everything else (the spec
leaves other strings to implementation-defined fallback parsing, which this
model treats as invalid). -/
def jsParseDate (s : String) : Option Int :=
  match parseDateOnly s.data with
  | none => none
  | some (y, m, d) =>
    if 1 ≤ m ∧ m ≤ 12 ∧ 1 ≤ d ∧ d ≤ daysInMonth y m then
      let t := epochSecondsOfDate y m d
      if -8640000000000 ≤ t ∧ t ≤ 8640000000000 then some t else none
    else none

/-- One element of the `dateFilter` array handed to `parseDateFilter`: a JS
object that may carry `date`, `start` and `end` string fields (`stop` models
the JS field named `end`).  Absent fields are `none`. -/
structure FilterSpec where
  date : Option String
  start : Option String
  stop : Option String
deriving DecidableEq

/-- A parsed date range as pushed by `parseDateFilter`: `start`/`stop` are
Unix-second bounds where `none` models `NaN` (for `start` and `stop`) or the
explicit `null` open end (for `stop`); `stop` models the JS field named
`end`. -/
structure DateRange where
  start : Option Int
  stop : Option Int
  description : String
deriving DecidableEq

/-- The body of the `for (const filter of dateFilter)` loop in
`parseDateFilter` (`src/unnamed/part_000` lines 600-636): the range pushed for
one filter spec, or `none` when the spec is skipped. -/
def processSpec (f : FilterSpec) : Option DateRange :=
  if truthyStr f.date then
    let s := jsParseDate (f.date.getD "")
    some ⟨s, s.map (· + 86400), f.date.getD ""⟩
  else if truthyStr f.start && truthyStr f.stop then
    some ⟨jsParseDate (f.start.getD ""),
          (jsParseDate (f.stop.getD "")).map (· + 86400),
          f.start.getD "" ++ " to " ++ f.stop.getD ""⟩
  else if truthyStr f.start then
    some ⟨jsParseDate (f.start.getD ""), none, "from " ++ f.start.getD ""⟩
  else none

/-- `parseDateFilter` (`src/unnamed/part_000` lines 593-639).  A `null`
argument is `none`; a non-array argument (also mapped to `null` by the code)
is not modelled.  Returns `none` ("no filter") when no range was pushed. -/
def parseDateFilter (dateFilter : Option (List FilterSpec)) : Option (List DateRange) :=
  match dateFilter with
  | none => none
  | some l =>
    let ranges := l.filterMap processSpec
    if ranges.isEmpty then none else some ranges

/-- The range test inside `applyDateFilter` (`src/unnamed/part_000` lines
648-652), including the JS truthiness guards: a falsy bound (`NaN`, `null` or
`0`) disables that side of the check. -/
def rangeMatches (r : DateRange) (t : Int) : Bool :=
  if truthyNum r.start && decide (t < r.start.getD 0) then false
  else if truthyNum r.stop && decide (r.stop.getD 0 ≤ t) then false
  else true

/-- `applyDateFilter` (`src/unnamed/part_000` lines 641-655): keep the
transcripts that match at least one parsed range; with no usable filter,
return the list unchanged. -/
def applyDateFilter (transcripts : List Transcript) (dateFilter : Option (List FilterSpec)) :
    List Transcript :=
  match parseDateFilter dateFilter with
  | none => transcripts
  | some ranges => transcripts.filter (fun t => ranges.any (fun r => rangeMatches r t.created_at))

/-- Largest `r ≤ k` with `r * r ≤ n`, by downward search (a structurally
recursive integer square root, so that concrete instances evaluate). -/
def isqrtAux (n : Nat) : Nat → Nat
  | 0 => 0
  | r + 1 => if (r + 1) * (r + 1) ≤ n then r + 1 else isqrtAux n r

/-- Integer square root: the largest `r` with `r * r ≤ n`. -/
def isqrt (n : Nat) : Nat := isqrtAux n n

/-- Rational model of `Math.sqrt` on the non-negative rationals:
`sqrt (n / d) = sqrt (n * d) / d`, computed with the integer square root.
Exact on perfect squares and, like float square root, positive on positive
inputs and zero at zero. -/
def ratSqrt (q : ℚ) : ℚ :=
  if q ≤ 0 then 0 else (isqrt (q.num.toNat * q.den) : ℚ) / (q.den : ℚ)

/-- The `dotProduct` accumulation of `cosineSimilarity`
(`src/lib/telegram-helpers.js` lines 190-202): the loop runs over the indices
of `vecA`. -/
def dotFold (vecA vecB : List ℚ) : ℚ :=
  (List.range vecA.length).foldl (fun acc i => acc + vecA.getD i 0 * vecB.getD i 0) 0

/-- The `normA`/`normB` accumulations of `cosineSimilarity`: sum of squares of
the first `n` entries of `v` (the loop bound is `vecA.length` for both
vectors). -/
def normFold (v : List ℚ) (n : Nat) : ℚ :=
  (List.range n).foldl (fun acc i => acc + v.getD i 0 * v.getD i 0) 0

/-- `cosineSimilarity` (`src/lib/telegram-helpers.js` lines 190-202).  The
code divides without any zero guard; a zero denominator makes the JS division
produce a non-finite value (`NaN`), modelled as `none`.  When `vecB` is
shorter than `vecA` the loop reads `undefined` and every accumulator becomes
`NaN`, also modelled as `none`. -/
def cosineSimilarity (vecA vecB : List ℚ) : Option ℚ :=
  if vecB.length < vecA.length then none
  else
    let denom := ratSqrt (normFold vecA vecA.length) * ratSqrt (normFold vecB vecA.length)
    if denom = 0 then none else some (dotFold vecA vecB / denom)

/-- A transcript row paired with its `similarity` field, as built by the
`results` map inside `vectorSearch` (`src/unnamed/part_000` lines 676-680). -/
abbrev Scored := Transcript × Option ℚ

/-- Sign of the JS sort comparator `(a, b) => b.similarity - a.similarity`:
`simBefore p q` holds when the comparator orders `p` strictly before `q`.
A `NaN` similarity makes the comparator return `NaN`, which the engine treats
as a tie, so any pair involving `none` compares as equal. -/
def simBefore (p q : Scored) : Bool :=
  match p.2, q.2 with
  | some a, some b => decide (b < a)
  | _, _ => false

/-- One insertion step of the stable descending sort: the new element passes
exactly the elements that strictly precede it. -/
def jsInsert (x : Scored) : List Scored → List Scored
  | [] => [x]
  | y :: ys => if simBefore y x then y :: jsInsert x ys else x :: y :: ys

/-- `results.sort((a, b) => b.similarity - a.similarity)` modelled as a stable
insertion sort: ECMAScript 2019 requires `Array.prototype.sort` to be stable,
and for a consistent comparator every stable sort produces the same list. -/
def jsSortDesc : List Scored → List Scored
  | [] => []
  | x :: l => jsInsert x (jsSortDesc l)

/-- The scored candidate list built by `vectorSearch` before sorting
(`src/unnamed/part_000` lines 666-680): rows with a non-`NULL` embedding, in
fetch order, optionally date-filtered, each paired with its cosine similarity
to the query embedding. -/
def scoredEntries (queryEmbedding : List ℚ) (rows : List Transcript)
    (dateFilter : Option (List FilterSpec)) : List Scored :=
  let embedded := rows.filter (fun t => t.embedding.isSome)
  let filtered := if dateFilter.isSome then applyDateFilter embedded dateFilter else embedded
  filtered.map (fun t => (t, cosineSimilarity queryEmbedding (t.embedding.getD [])))

/-- The error thrown by `vectorSearch` when the embedding model flag is still
false (`src/unnamed/part_000` lines 659-661). -/
inductive SearchError where
  | notReady
deriving DecidableEq

/-- `vectorSearch` (`src/unnamed/part_000` lines 657-684).  `ready` models the
global `isEmbeddingModelReady()` flag, `embedOf` models the external
`generateEmbedding` call (success path), and `rows` models the
`SELECT * FROM transcripts WHERE embedding IS NOT NULL` result in fetch
order. -/
def vectorSearch (ready : Bool) (embedOf : String → List ℚ) (queryText : String)
    (rows : List Transcript) (topK : Nat) (dateFilter : Option (List FilterSpec)) :
    Except SearchError (List Scored) :=
  if !ready then Except.error SearchError.notReady
  else Except.ok ((jsSortDesc (scoredEntries (embedOf queryText) rows dateFilter)).take topK)

/-- A parsed JSON value as produced by `JSON.parse`.  Numbers are kept as
their source lexeme (the double conversion is out of scope for the claims);
objects keep their members in source order. -/
inductive Json where
  | null
  | bool (b : Bool)
  | num (lexeme : String)
  | str (s : String)
  | arr (elems : List Json)
  | obj (members : List (String × Json))

/-- The opening-brace character, written via its code point to keep source
braces out of character literals. -/
def lbrace : Char := Char.ofNat 123

/-- The closing-brace character. -/
def rbrace : Char := Char.ofNat 125

/-- JSON insignificant whitespace: space, tab, line feed, carriage return. -/
def jsonWs (c : Char) : Bool :=
  c == ' ' || c == '\t' || c == '\n' || c == '\r'

/-- Value of a hexadecimal digit, for `\u` escapes. -/
def hexVal (c : Char) : Option Nat :=
  if c.isDigit then some (c.toNat - 48)
  else if 'a' ≤ c && c ≤ 'f' then some (c.toNat - 87)
  else if 'A' ≤ c && c ≤ 'F' then some (c.toNat - 55)
  else none

/-- Single-character JSON string escapes. -/
def escChar (c : Char) : Option Char :=
  if c = '"' then some '"'
  else if c = '\\' then some '\\'
  else if c = '/' then some '/'
  else if c = 'b' then some (Char.ofNat 8)
  else if c = 'f' then some (Char.ofNat 12)
  else if c = 'n' then some '\n'
  else if c = 'r' then some '\r'
  else if c = 't' then some '\t'
  else none

/-- Parse the body of a JSON string after the opening quote, returning the
decoded characters and the remaining input.  Unescaped control characters and
invalid escapes are rejected, as `JSON.parse` does. -/
def parseStrChars : List Char → Option (List Char × List Char)
  | [] => none
  | c :: rest =>
    if c = '"' then some ([], rest)
    else if c = '\\' then
      match rest with
      | 'u' :: h1 :: h2 :: h3 :: h4 :: rest3 =>
        match hexVal h1, hexVal h2, hexVal h3, hexVal h4 with
        | some v1, some v2, some v3, some v4 =>
          match parseStrChars rest3 with
          | some (cs, r) => some (Char.ofNat (((v1 * 16 + v2) * 16 + v3) * 16 + v4) :: cs, r)
          | none => none
        | _, _, _, _ => none
      | e :: rest2 =>
        match escChar e with
        | some ec =>
          match parseStrChars rest2 with
          | some (cs, r) => some (ec :: cs, r)
          | none => none
        | none => none
      | [] => none
    else if c.toNat < 32 then none
    else
      match parseStrChars rest with
      | some (cs, r) => some (c :: cs, r)
      | none => none

/-- Integer part of a JSON number: `0`, or a nonzero digit followed by more
digits (leading zeros are rejected, as in the JSON grammar). -/
def parseIntPart (l : List Char) : Option (List Char × List Char) :=
  match l with
  | c :: r =>
    if c = '0' then some ([c], r)
    else if c.isDigit then some (c :: r.takeWhile Char.isDigit, r.dropWhile Char.isDigit)
    else none
  | [] => none

/-- One or more digits. -/
def parseDigits1 (l : List Char) : Option (List Char × List Char) :=
  match l with
  | c :: r =>
    if c.isDigit then some (c :: r.takeWhile Char.isDigit, r.dropWhile Char.isDigit)
    else none
  | [] => none

/-- Optional fraction part of a JSON number. -/
def parseFrac (l : List Char) : Option (List Char × List Char) :=
  match l with
  | c :: r =>
    if c = '.' then
      match parseDigits1 r with
      | some (ds, r1) => some (c :: ds, r1)
      | none => none
    else some ([], l)
  | [] => some ([], l)

/-- Optional exponent part of a JSON number. -/
def parseExp (l : List Char) : Option (List Char × List Char) :=
  match l with
  | c :: r =>
    if c = 'e' || c = 'E' then
      match r with
      | s :: r1 =>
        if s = '+' || s = '-' then
          match parseDigits1 r1 with
          | some (ds, r2) => some (c :: s :: ds, r2)
          | none => none
        else
          match parseDigits1 r with
          | some (ds, r2) => some (c :: ds, r2)
          | none => none
      | [] => none
    else some ([], l)
  | [] => some ([], l)

/-- Parse a JSON number, keeping its lexeme. -/
def parseNumber (l : List Char) : Option (Json × List Char) :=
  let p := match l with
    | c :: r => if c = '-' then (([c] : List Char), r) else (([] : List Char), l)
    | [] => (([] : List Char), l)
  match parseIntPart p.2 with
  | none => none
  | some (ip, l2) =>
    match parseFrac l2 with
    | none => none
    | some (fp, l3) =>
      match parseExp l3 with
      | none => none
      | some (ep, l4) => some (Json.num (String.mk (p.1 ++ ip ++ fp ++ ep)), l4)

mutual

/-- Parse one JSON value (after skipping leading whitespace), returning it and
the remaining input.  The fuel argument only bounds recursion depth; the
wrapper supplies enough fuel for any input. -/
def parseVal : Nat → List Char → Option (Json × List Char)
  | 0, _ => none
  | fuel + 1, l =>
    let l1 := l.dropWhile jsonWs
    match l1 with
    | [] => none
    | c :: rest =>
      if c = 'n' then
        match rest with
        | 'u' :: 'l' :: 'l' :: r => some (Json.null, r)
        | _ => none
      else if c = 't' then
        match rest with
        | 'r' :: 'u' :: 'e' :: r => some (Json.bool true, r)
        | _ => none
      else if c = 'f' then
        match rest with
        | 'a' :: 'l' :: 's' :: 'e' :: r => some (Json.bool false, r)
        | _ => none
      else if c = '"' then
        match parseStrChars rest with
        | some (cs, r) => some (Json.str (String.mk cs), r)
        | none => none
      else if c = '[' then
        match parseElems fuel true rest with
        | some (es, r) => some (Json.arr es, r)
        | none => none
      else if c = lbrace then
        match parseMembers fuel true rest with
        | some (ms, r) => some (Json.obj ms, r)
        | none => none
      else parseNumber l1

/-- Parse the elements of a JSON array after the opening bracket; `first` is
true before any element has been read (only then may the array close
immediately). -/
def parseElems : Nat → Bool → List Char → Option (List Json × List Char)
  | 0, _, _ => none
  | fuel + 1, first, l =>
    let l1 := l.dropWhile jsonWs
    match l1 with
    | ']' :: r => if first then some ([], r) else none
    | _ =>
      match parseVal fuel l1 with
      | none => none
      | some (v, r1) =>
        let r2 := r1.dropWhile jsonWs
        match r2 with
        | ',' :: r3 =>
          match parseElems fuel false r3 with
          | some (es, r4) => some (v :: es, r4)
          | none => none
        | ']' :: r3 => some ([v], r3)
        | _ => none

/-- Parse the members of a JSON object after the opening brace; `first` is
true before any member has been read. -/
def parseMembers : Nat → Bool → List Char → Option (List (String × Json) × List Char)
  | 0, _, _ => none
  | fuel + 1, first, l =>
    let l1 := l.dropWhile jsonWs
    match l1 with
    | c :: rest =>
      if c = rbrace then
        if first then some ([], rest) else none
      else if c = '"' then
        match parseStrChars rest with
        | none => none
        | some (k, r1) =>
          let r2 := r1.dropWhile jsonWs
          match r2 with
          | ':' :: r3 =>
            match parseVal fuel r3 with
            | none => none
            | some (v, r4) =>
              let r5 := r4.dropWhile jsonWs
              match r5 with
              | ',' :: r6 =>
                match parseMembers fuel false r6 with
                | some (ms, r7) => some ((String.mk k, v) :: ms, r7)
                | none => none
              | c2 :: r6 => if c2 = rbrace then some ([(String.mk k, v)], r6) else none
              | [] => none
          | _ => none
      else none
    | [] => none

end

/-- `JSON.parse` on a character list: parse one value and require only
whitespace to remain.  Two fuel units amply cover each consumed character. -/
def jsonParseChars (l : List Char) : Option Json :=
  match parseVal (2 * l.length + 4) l with
  | some (v, rest) => if (rest.dropWhile jsonWs).isEmpty then some v else none
  | none => none

/-- `String.prototype.trim`, modelled on the ASCII whitespace characters
(the full Unicode whitespace set is out of scope). -/
def jsTrim (l : List Char) : List Char :=
  ((l.dropWhile Char.isWhitespace).reverse.dropWhile Char.isWhitespace).reverse

/-- Index of the last occurrence of `c` in `l`. -/
def lastIdxOf (c : Char) (l : List Char) : Option Nat :=
  match l.reverse.findIdx? (· == c) with
  | none => none
  | some i => some (l.length - 1 - i)

/-- Models `content.match(/\x7b[\s\S]*\x7d/)` (the brace-to-brace regex of
`classifyQuery`): the leftmost opening brace, extended greedily to the last
closing brace of the whole string.  A match exists exactly when the first
opening brace lies before the last closing brace. -/
def extractBraces (l : List Char) : Option (List Char) :=
  match l.findIdx? (· == lbrace), lastIdxOf rbrace l with
  | some i, some j => if i < j then some ((l.drop i).take (j - i + 1)) else none
  | _, _ => none

/-- The fallback classification object
`{type: "semantic", searchTerms: userQuery, dateFilter: null}` returned by
`classifyQuery` on any failure (`src/unnamed/part_000` line 551). -/
def defaultClassification (userQuery : String) : Json :=
  Json.obj [("type", Json.str "semantic"), ("searchTerms", Json.str userQuery),
            ("dateFilter", Json.null)]

/-- `classifyQuery` (`src/unnamed/part_000` lines 482-553).  The completion
call is an external collaborator, modelled by its outcome `serviceReply`
(`Except.error` covers a network/service failure or an absent message).  The
code trims the reply, extracts the brace-to-brace substring, parses it, and
returns the parsed value unvalidated; every failure along the way is caught
and mapped to the default classification. -/
def classifyQuery (userQuery : String) (serviceReply : Except Unit String) : Json :=
  match serviceReply with
  | Except.error _ => defaultClassification userQuery
  | Except.ok content =>
    match extractBraces (jsTrim content.data) with
    | none => defaultClassification userQuery
    | some m =>
      match jsonParseChars m with
      | none => defaultClassification userQuery
      | some v => v

/-- The member names of a JSON object (empty for non-objects); used to tell
parsed objects apart without a decidable equality on `Json`. -/
def Json.keys : Json → List String
  | Json.obj ms => ms.map Prod.fst
  | _ => []

/-- The three fields of the parsed classification object that the text
handler reads (`src/unnamed/part_000` lines 800-845): `type` via `===`
comparisons, `searchTerms` via `classification.searchTerms || userQuery`, and
`dateFilter` passed on to `vectorSearch`.  `none` models an absent or `null`
field. -/
structure Classification where
  type : String
  searchTerms : Option String
  dateFilter : Option (List FilterSpec)
deriving DecidableEq

/-- The JS `||` fallback on an optional string: the default is used when the
field is absent, `null`, or the empty string (all falsy). -/
def jsOrString (s : Option String) (dflt : String) : String :=
  match s with
  | some v => if v = "" then dflt else v
  | none => dflt

/-- The user-visible outcome of one text-query interaction
(`src/unnamed/part_000` lines 785-865): the "model is still loading" notice,
the "no relevant notes" notice, an answer grounded in the retrieved
transcripts, or the catch-all error reply. -/
inductive HandlerResult where
  | modelLoading
  | noResults
  | answer (entries : List Transcript)
  | failure
deriving DecidableEq

/-- The environment of the text handler: the embedding-model ready flag, the
external embedding function, the four period fetches
(`getTranscriptsToday/ThisWeek/ThisMonth/ThisYear`, each a database query
evaluated at handling time), and the embedded-rows fetch used by
`vectorSearch`. -/
structure BotEnv where
  ready : Bool
  embedOf : String → List ℚ
  today : List Transcript
  week : List Transcript
  month : List Transcript
  year : List Transcript
  rows : List Transcript

/-- The `bot.on('text')` handler (`src/unnamed/part_000` lines 785-865),
taking the classification produced for the query: if the embedding model is
not ready every query is short-circuited with the loading notice; otherwise
the four period kinds dispatch to their in-period fetch and any other kind
runs `vectorSearch` with the resolved search terms, a fixed `topK` of 5 and
the classification's date filter.  An empty retrieval yields the no-results
notice; a thrown error yields the catch-all reply. -/
def handleText (env : BotEnv) (userQuery : String) (c : Classification) : HandlerResult :=
  if !env.ready then HandlerResult.modelLoading
  else
    let relevant : Except SearchError (List Transcript) :=
      if c.type = "today" then Except.ok env.today
      else if c.type = "week" then Except.ok env.week
      else if c.type = "month" then Except.ok env.month
      else if c.type = "year" then Except.ok env.year
      else (vectorSearch env.ready env.embedOf (jsOrString c.searchTerms userQuery)
              env.rows 5 c.dateFilter).map (List.map Prod.fst)
    match relevant with
    | Except.error _ => HandlerResult.failure
    | Except.ok rel => if rel.isEmpty then HandlerResult.noResults else HandlerResult.answer rel

/-- The final reaction emoji of the voice handler: ✅ for an already-stored
duplicate, 👍 for a successful save, 👎 for a caught error. -/
inductive Reaction where
  | check
  | thumbsUp
  | thumbsDown
deriving DecidableEq

/-- The fields of an inbound Telegram voice message that the handler reads:
`ctx.message.message_id`, `voice.file_id`, `ctx.message.date` and
`voice.duration`. -/
structure VoiceMsg where
  message_id : Int
  file_id : String
  date : Int
  duration : Int
deriving DecidableEq

/-- Results of the external steps of the voice handler (R2 upload key, Groq
transcription, optional embedding), modelled as inputs of the success
path. -/
structure VoiceSideEffects where
  r2Key : String
  transcript : String
  embedding : Option (List ℚ)
deriving DecidableEq

/-- The `bot.on('voice')` handler (`src/unnamed/part_000` lines 727-782) as a
transition on the stored rows: if a row with the same `voice_file_id` exists
the handler reacts ✅ and stores nothing; otherwise it inserts the new row
(the `message_id UNIQUE` constraint makes a clashing insert throw, caught as
👎) and reacts 👍. -/
def handleVoice (db : List Transcript) (msg : VoiceMsg) (ext : VoiceSideEffects) :
    List Transcript × Reaction :=
  if db.any (fun r => r.voice_file_id == msg.file_id) then (db, Reaction.check)
  else if db.any (fun r => r.message_id == msg.message_id) then (db, Reaction.thumbsDown)
  else (db ++ [⟨msg.message_id, msg.file_id, ext.r2Key, ext.transcript, msg.date,
               msg.duration, ext.embedding⟩], Reaction.thumbsUp)

/-- `embeddingToBuffer` (`src/lib/telegram-helpers.js` lines 209-215)
parametrised by the IEEE-754 binary32 little-endian encoder `enc` (the
`Buffer.writeFloatLE` codec is a platform primitive): the buffer is the
concatenation of the 4-byte encodings written at offsets `0, 4, 8, ...`. -/
def embeddingToBuffer (enc : ℚ → List Nat) (v : List ℚ) : List Nat :=
  (v.map enc).flatten

/-- `bufferToEmbedding` (`src/lib/telegram-helpers.js` lines 222-228)
parametrised by the binary32 little-endian decoder `dec`: reads 4 bytes at a
time; a trailing partial chunk makes `readFloatLE` throw out of range,
modelled as `none`. -/
def bufferToEmbedding (dec : List Nat → ℚ) : List Nat → Option (List ℚ)
  | [] => some []
  | b0 :: b1 :: b2 :: b3 :: rest =>
    match bufferToEmbedding dec rest with
    | some tl => some (dec [b0, b1, b2, b3] :: tl)
    | none => none
  | _ => none

/-- Every entry of an all-zero vector reads as zero, also past the end. -/
theorem getD_eq_zero_of_all_zero {v : List ℚ} (h : ∀ x ∈ v, x = 0) (i : Nat) :
    v.getD i 0 = 0 := by
  induction v generalizing i with
  | nil => simp
  | cons x xs ih =>
    cases i with
    | zero => simpa using h x (by simp)
    | succ j => simpa using ih (fun y hy => h y (by simp [hy])) j

/-- The square-sum accumulation of an all-zero vector is zero. -/
theorem normFold_eq_zero_of_all_zero {v : List ℚ} (h : ∀ x ∈ v, x = 0) (n : Nat) :
    normFold v n = 0 := by
  have hgen : ∀ (l : List Nat) (c : ℚ),
      l.foldl (fun acc i => acc + v.getD i 0 * v.getD i 0) c = c := by
    intro l
    induction l with
    | nil => intro c; rfl
    | cons i l ih =>
      intro c
      rw [List.foldl_cons]
      show l.foldl (fun acc j => acc + v.getD j 0 * v.getD j 0)
          (c + v.getD i 0 * v.getD i 0) = c
      rw [getD_eq_zero_of_all_zero h i, mul_zero, add_zero]
      exact ih c
  simpa [normFold] using hgen (List.range n) 0

/-- The square root model sends zero to zero. -/
theorem ratSqrt_zero : ratSqrt 0 = 0 := by
  simp [ratSqrt]

/-- Claim C10 (amended): `cosineSimilarity` computes
`dot / (sqrt normA * sqrt normB)` with no zero guard — whenever either input
vector is all-zero the denominator is zero and the JS division yields a
non-finite value (modelled `none`); whenever the denominator is nonzero the
quotient is returned. -/
theorem cosine_formula_no_guard (a b : List ℚ) (hlen : a.length ≤ b.length) :
    (((∀ x ∈ a, x = 0) ∨ (∀ x ∈ b, x = 0)) → cosineSimilarity a b = none) ∧
    (ratSqrt (normFold a a.length) * ratSqrt (normFold b a.length) ≠ 0 →
      cosineSimilarity a b =
        some (dotFold a b /
          (ratSqrt (normFold a a.length) * ratSqrt (normFold b a.length)))) := by
  have hnotlt : ¬ b.length < a.length := not_lt.mpr hlen
  constructor
  · intro hzero
    have hden : ratSqrt (normFold a a.length) * ratSqrt (normFold b a.length) = 0 := by
      rcases hzero with hA | hB
      · rw [normFold_eq_zero_of_all_zero hA, ratSqrt_zero, zero_mul]
      · rw [normFold_eq_zero_of_all_zero hB, ratSqrt_zero, mul_zero]
    simp [cosineSimilarity, hnotlt, hden]
  · intro hden
    simp [cosineSimilarity, hnotlt, hden]

/-- Claim C10 witness: the unguarded-zero case at a concrete input. -/
theorem cosine_formula_no_guard_witness :
    cosineSimilarity [(0 : ℚ), 0] [(0 : ℚ), 0, 1] = none :=
  (cosine_formula_no_guard [0, 0] [0, 0, 1] (by decide)).1 (Or.inl (by decide))

/-- Claim C10 counterexample: for the all-zero vectors `[0]` and `[0]` the
implementation does evaluate the division with a zero denominator — the
result is the JS `NaN` (modelled `none`), so no guard exists. -/
theorem cosine_zero_nan_cex : cosineSimilarity [(0 : ℚ)] [(0 : ℚ)] = none := by
  simp [cosineSimilarity, normFold, ratSqrt, List.range_succ]

/-- Claim C1 (amended): `classifyQuery` never throws; a completion-service
failure, a reply with no brace-delimited substring, or a JSON parse failure
each produce the default classification, while any successfully parsed JSON
value is returned as-is, without validation of required fields. -/
theorem classifyQuery_fallback (q : String) (svc : Except Unit String) :
    (∀ e, svc = Except.error e → classifyQuery q svc = defaultClassification q) ∧
    (∀ c, svc = Except.ok c →
      (extractBraces (jsTrim c.data)).bind jsonParseChars = none →
      classifyQuery q svc = defaultClassification q) ∧
    (∀ c v, svc = Except.ok c →
      (extractBraces (jsTrim c.data)).bind jsonParseChars = some v →
      classifyQuery q svc = v) := by
  refine ⟨?_, ?_, ?_⟩
  · intro e he
    subst he
    rfl
  · intro c hc hnone
    subst hc
    cases hx : extractBraces (jsTrim c.data) with
    | none => simp only [classifyQuery, hx]
    | some m =>
      rw [hx, Option.some_bind] at hnone
      simp only [classifyQuery, hx, hnone]
  · intro c v hc hsome
    subst hc
    cases hx : extractBraces (jsTrim c.data) with
    | none =>
      rw [hx, Option.none_bind] at hsome
      exact absurd hsome (by simp)
    | some m =>
      rw [hx, Option.some_bind] at hsome
      simp only [classifyQuery, hx, hsome]

/-- Claim C1 witness: a reply without any JSON object falls back to the
default classification. -/
theorem classifyQuery_fallback_witness :
    classifyQuery "hi" (Except.ok "no json here") = defaultClassification "hi" :=
  (classifyQuery_fallback "hi" (Except.ok "no json here")).2.1 "no json here" rfl rfl

/-- Claim C1 counterexample: a reply whose JSON object parses but lacks every
required field (`type`, `searchTerms`, `dateFilter`) is returned as-is — the
code performs no required-field validation, so the result is not the default
classification the claim promises. -/
theorem classifyQuery_missingField_cex :
    classifyQuery "tell me about coffee" (Except.ok "\x7b\"foo\": \"x\"\x7d") ≠
      defaultClassification "tell me about coffee" := by
  intro h
  have h1 : Json.keys (classifyQuery "tell me about coffee"
      (Except.ok "\x7b\"foo\": \"x\"\x7d")) = ["foo"] := rfl
  have h2 : Json.keys (defaultClassification "tell me about coffee") =
      ["type", "searchTerms", "dateFilter"] := rfl
  rw [h, h2] at h1
  exact absurd h1 (by decide)

/-- Claim C3 (amended): the single-date filter for 2026-01-15 produces the
UTC-midnight half-open day range `[1768435200, 1768521600)` — that is,
`[2026-01-15T00:00:00Z, 2026-01-16T00:00:00Z)` — so an entry created at
2026-01-15T23:59:59Z matches and one created at 2026-01-16T00:00:00Z does
not; the boundaries agree with the configured local timezone only when that
timezone is UTC. -/
theorem singleDate_utc_range :
    parseDateFilter (some [⟨some "2026-01-15", none, none⟩]) =
      some [⟨some 1768435200, some 1768521600, "2026-01-15"⟩] ∧
    applyDateFilter [⟨1, "f1", "k1", "t1", 1768521599, 5, none⟩]
        (some [⟨some "2026-01-15", none, none⟩]) =
      [⟨1, "f1", "k1", "t1", 1768521599, 5, none⟩] ∧
    applyDateFilter [⟨2, "f2", "k2", "t2", 1768521600, 5, none⟩]
        (some [⟨some "2026-01-15", none, none⟩]) = [] := by
  exact ⟨by decide, by decide, by decide⟩

/-- Claim C3 counterexample: 1768550399 is 2026-01-15T23:59:59 in
America/Los_Angeles — the timezone this bot is configured to render every
date in — yet the parsed range `[1768435200, 1768521600)` (UTC midnights)
excludes it, and the range is not the configured-local day
`[1768464000, 1768550400)` the claim describes. -/
theorem singleDate_localDay_cex :
    applyDateFilter [⟨3, "f3", "k3", "t3", 1768550399, 5, none⟩]
        (some [⟨some "2026-01-15", none, none⟩]) = [] ∧
    parseDateFilter (some [⟨some "2026-01-15", none, none⟩]) ≠
      some [⟨some 1768464000, some 1768550400, "2026-01-15"⟩] := by
  exact ⟨by decide, by decide⟩

/-- A range with truthy integer bounds matches a timestamp exactly on the
half-open interval. -/
theorem rangeMatches_iff {s e : Int} (hs : s ≠ 0) (he : e ≠ 0) (d : String) (x : Int) :
    rangeMatches ⟨some s, some e, d⟩ x = true ↔ s ≤ x ∧ x < e := by
  have hs2 : truthyNum (some s) = true := by simp [truthyNum, hs]
  have he2 : truthyNum (some e) = true := by simp [truthyNum, he]
  unfold rangeMatches
  rw [hs2, he2]
  by_cases h1 : x < s
  all_goals by_cases h2 : e ≤ x
  all_goals (simp [h1, h2]; try omega)

/-- Claim C4: with a parsed filter whose ranges all have truthy (nonzero)
bounds, an entry survives `applyDateFilter` exactly when its `created_at`
falls into the half-open interval `[start, end)` of at least one range — OR
semantics across ranges. -/
theorem applyDateFilter_or (ts : List Transcript) (df : List FilterSpec)
    (ranges : List DateRange)
    (hp : parseDateFilter (some df) = some ranges)
    (hr : ∀ r ∈ ranges, ∃ s e, r.start = some s ∧ s ≠ 0 ∧ r.stop = some e ∧ e ≠ 0)
    (t : Transcript) :
    t ∈ applyDateFilter ts (some df) ↔
      t ∈ ts ∧ ∃ r ∈ ranges, ∃ s e, r.start = some s ∧ r.stop = some e ∧
        s ≤ t.created_at ∧ t.created_at < e := by
  unfold applyDateFilter
  rw [hp, List.mem_filter, List.any_eq_true]
  constructor
  · rintro ⟨ht, r, hrin, hmatch⟩
    obtain ⟨s, e, hstart, hs, hstop, he⟩ := hr r hrin
    refine ⟨ht, r, hrin, s, e, hstart, hstop, ?_⟩
    have : rangeMatches ⟨some s, some e, r.description⟩ t.created_at = true := by
      have hrr : r = ⟨some s, some e, r.description⟩ := by
        cases r
        simp_all
      rw [← hrr]
      exact hmatch
    exact (rangeMatches_iff hs he r.description t.created_at).mp this
  · rintro ⟨ht, r, hrin, s, e, hstart, hstop, hin⟩
    obtain ⟨s2, e2, hstart2, hs2, hstop2, he2⟩ := hr r hrin
    have hse : s2 = s := by rw [hstart] at hstart2; exact (Option.some_inj.mp hstart2).symm
    have hee : e2 = e := by rw [hstop] at hstop2; exact (Option.some_inj.mp hstop2).symm
    subst hse hee
    refine ⟨ht, r, hrin, ?_⟩
    have hrr : r = ⟨some s2, some e2, r.description⟩ := by
      cases r
      simp_all
    rw [hrr]
    exact (rangeMatches_iff hs2 he2 r.description t.created_at).mpr hin

/-- Claim C4 witness: a two-range filter (a single day and a start+end pair)
at an entry lying inside the second range only. -/
theorem applyDateFilter_or_witness :
    ⟨9, "f9", "k9", "t9", 1772323300, 5, none⟩ ∈
      applyDateFilter [⟨9, "f9", "k9", "t9", 1772323300, 5, none⟩]
        (some [⟨some "2026-01-15", none, none⟩,
               ⟨none, some "2026-03-01", some "2026-03-10"⟩]) ↔
      ⟨9, "f9", "k9", "t9", 1772323300, 5, none⟩ ∈
          [(⟨9, "f9", "k9", "t9", 1772323300, 5, none⟩ : Transcript)] ∧
        ∃ r ∈ [(⟨some 1768435200, some 1768521600, "2026-01-15"⟩ : DateRange),
               ⟨some 1772323200, some 1773187200, "2026-03-01 to 2026-03-10"⟩],
          ∃ s e, r.start = some s ∧ r.stop = some e ∧
            s ≤ (1772323300 : Int) ∧ (1772323300 : Int) < e :=
  applyDateFilter_or [⟨9, "f9", "k9", "t9", 1772323300, 5, none⟩]
    [⟨some "2026-01-15", none, none⟩, ⟨none, some "2026-03-01", some "2026-03-10"⟩]
    [⟨some 1768435200, some 1768521600, "2026-01-15"⟩,
     ⟨some 1772323200, some 1773187200, "2026-03-01 to 2026-03-10"⟩]
    (by decide)
    (by
      intro r hrin
      rcases List.mem_cons.mp hrin with h | h
      · subst h
        exact ⟨1768435200, 1768521600, rfl, by decide, rfl, by decide⟩
      · rcases List.mem_cons.mp h with h2 | h2
        · subst h2
          exact ⟨1772323200, 1773187200, rfl, by decide, rfl, by decide⟩
        · exact absurd h2 (List.not_mem_nil r))
    ⟨9, "f9", "k9", "t9", 1772323300, 5, none⟩

/-- Claim C5 (amended): a spec that produces no range is dropped; when every
spec is dropped the parser returns "no filter"; a malformed-but-keyed spec is
not dropped — it yields a range with `NaN` (falsy) bounds — yet whenever every
produced range has falsy bounds, filtering still returns every entry
unchanged. -/
theorem vacuousFilter_matches_all (ts : List Transcript) (l : List FilterSpec)
    (h : ∀ f ∈ l, ∀ r, processSpec f = some r →
      truthyNum r.start = false ∧ truthyNum r.stop = false) :
    applyDateFilter ts (some l) = ts ∧
    ((∀ f ∈ l, processSpec f = none) → parseDateFilter (some l) = none) := by
  constructor
  · unfold applyDateFilter
    cases hp : parseDateFilter (some l) with
    | none => rfl
    | some ranges =>
      have hrs : ranges = l.filterMap processSpec ∧ ¬ (l.filterMap processSpec).isEmpty = true := by
        by_cases hE : (l.filterMap processSpec).isEmpty = true
        · exfalso
          simp [parseDateFilter, hE] at hp
        · have hp2 := hp
          simp [parseDateFilter, hE] at hp2
          exact ⟨hp2.symm, hE⟩
      have hmem : ∀ r ∈ ranges, truthyNum r.start = false ∧ truthyNum r.stop = false := by
        intro r hrin
        rw [hrs.1] at hrin
        obtain ⟨f, hf, hpf⟩ := List.mem_filterMap.mp hrin
        exact h f hf r hpf
      have hne : ranges ≠ [] := by
        intro h0
        rw [hrs.1] at h0
        rw [h0] at hrs
        exact hrs.2 rfl
      apply List.filter_eq_self.mpr
      intro t ht
      rw [List.any_eq_true]
      obtain ⟨r0, hr0⟩ := List.exists_mem_of_ne_nil ranges hne
      refine ⟨r0, hr0, ?_⟩
      obtain ⟨h1, h2⟩ := hmem r0 hr0
      unfold rangeMatches
      rw [h1, h2]
      simp
  · intro hall
    have h0 : l.filterMap processSpec = [] := List.filterMap_eq_nil_iff.mpr hall
    simp [parseDateFilter, h0]

/-- Claim C5 witness: one malformed date spec (kept as a vacuous `NaN` range)
plus one unrecognized end-only spec (dropped): filtering returns the list
unchanged, and the all-dropped implication holds vacuously. -/
theorem vacuousFilter_matches_all_witness :
    applyDateFilter [⟨8, "f8", "k8", "t8", 1700000000, 5, none⟩]
        (some [⟨some "nope", none, none⟩, ⟨none, none, some "2026-01-01"⟩]) =
      [⟨8, "f8", "k8", "t8", 1700000000, 5, none⟩] ∧
    ((∀ f ∈ [(⟨some "nope", none, none⟩ : FilterSpec), ⟨none, none, some "2026-01-01"⟩],
        processSpec f = none) →
      parseDateFilter (some [(⟨some "nope", none, none⟩ : FilterSpec),
        ⟨none, none, some "2026-01-01"⟩]) = none) :=
  vacuousFilter_matches_all [⟨8, "f8", "k8", "t8", 1700000000, 5, none⟩]
    [⟨some "nope", none, none⟩, ⟨none, none, some "2026-01-01"⟩] (by decide)

/-- Claim C5 counterexample: an input whose only spec is malformed (an
unparsable date string) yields zero usable ranges, yet the parser does not
return "no filter": it returns one range, whose bounds are the `NaN`
timestamps of the invalid date. -/
theorem malformedFilter_not_dropped_cex :
    parseDateFilter (some [⟨some "not-a-date", none, none⟩]) ≠ none ∧
    parseDateFilter (some [⟨some "not-a-date", none, none⟩]) =
      some [⟨none, none, "not-a-date"⟩] := by
  exact ⟨by decide, by decide⟩

/-- Unfolding the insert when the head strictly precedes the new element. -/
theorem jsInsert_cons_pos {x y : Scored} {ys : List Scored} (h : simBefore y x = true) :
    jsInsert x (y :: ys) = y :: jsInsert x ys := by
  simp [jsInsert, h]

/-- Unfolding the insert when the head does not strictly precede the new
element. -/
theorem jsInsert_cons_neg {x y : Scored} {ys : List Scored} (h : simBefore y x = false) :
    jsInsert x (y :: ys) = x :: y :: ys := by
  simp [jsInsert, h]

/-- Inserting keeps exactly the original elements plus the new one. -/
theorem jsInsert_perm (x : Scored) (l : List Scored) : (jsInsert x l).Perm (x :: l) := by
  induction l with
  | nil => exact List.Perm.refl _
  | cons y ys ih =>
    by_cases h : simBefore y x = true
    · rw [jsInsert_cons_pos h]
      exact (ih.cons y).trans (List.Perm.swap x y ys)
    · have hyx : simBefore y x = false := by
        cases hb : simBefore y x
        · rfl
        · exact absurd hb h
      rw [jsInsert_cons_neg hyx]

/-- The modelled JS sort permutes its input. -/
theorem jsSortDesc_perm (l : List Scored) : (jsSortDesc l).Perm l := by
  induction l with
  | nil => exact List.Perm.refl _
  | cons x xs ih =>
    exact (jsInsert_perm x (jsSortDesc xs)).trans (ih.cons x)

/-- Inserting splits the list at the first element that does not strictly
precede the new one: everything passed strictly precedes it. -/
theorem jsInsert_decomp (x : Scored) (l : List Scored) :
    ∃ l₁ l₂, l = l₁ ++ l₂ ∧ jsInsert x l = l₁ ++ x :: l₂ ∧
      ∀ y ∈ l₁, simBefore y x = true := by
  induction l with
  | nil => exact ⟨[], [], rfl, rfl, by simp⟩
  | cons y ys ih =>
    by_cases h : simBefore y x = true
    · obtain ⟨l₁, l₂, he, hi, hall⟩ := ih
      refine ⟨y :: l₁, l₂, by simp [he], ?_, ?_⟩
      · rw [jsInsert_cons_pos h, hi, List.cons_append]
      · intro z hz
        rcases List.mem_cons.mp hz with rfl | hz2
        · exact h
        · exact hall z hz2
    · have hyx : simBefore y x = false := by
        cases hb : simBefore y x
        · rfl
        · exact absurd hb h
      exact ⟨[], y :: ys, rfl, jsInsert_cons_neg hyx, by simp⟩

/-- The comparator-precedence relation is asymmetric. -/
theorem simBefore_asymm {a b : Scored} (h : simBefore a b = true) :
    simBefore b a = false := by
  rcases ha : a.2 with _ | av <;> rcases hb : b.2 with _ | bv <;>
    simp [simBefore, ha, hb] at h ⊢
  exact le_of_lt h

/-- If `a` strictly precedes `b` and `c` does not, then `c` does not strictly
precede `a` (the transitivity-like step used for sortedness; it needs `c`
finite or absent, which the match covers). -/
theorem simBefore_step {a b c : Scored} (hab : simBefore a b = true)
    (hcb : simBefore c b = false) : simBefore c a = false := by
  rcases ha : a.2 with _ | av <;> rcases hb : b.2 with _ | bv <;>
    simp [simBefore, ha, hb] at hab
  rcases hc : c.2 with _ | cv
  · simp [simBefore, hc]
  · simp [simBefore, hc, hb] at hcb
    simp [simBefore, ha, hc]
    exact le_trans hcb (le_of_lt hab)

/-- Inserting into a descending-sorted list of finite-similarity entries
keeps it sorted (the inserted entry may also be `NaN`). -/
theorem jsInsert_pairwise {x : Scored} {l : List Scored}
    (hl2 : ∀ p ∈ l, p.2.isSome = true)
    (hl : List.Pairwise (fun a b => simBefore b a = false) l) :
    List.Pairwise (fun a b => simBefore b a = false) (jsInsert x l) := by
  induction l with
  | nil => simp [jsInsert]
  | cons y ys ih =>
    rw [List.pairwise_cons] at hl
    obtain ⟨hy, hys⟩ := hl
    by_cases h : simBefore y x = true
    · rw [jsInsert_cons_pos h, List.pairwise_cons]
      constructor
      · intro z hz
        have hz2 : z ∈ x :: ys := ((jsInsert_perm x ys).mem_iff).mp hz
        rcases List.mem_cons.mp hz2 with rfl | hz3
        · exact simBefore_asymm h
        · exact hy z hz3
      · exact ih (fun p hp => hl2 p (List.mem_cons_of_mem y hp)) hys
    · have hyx : simBefore y x = false := by
        cases hb : simBefore y x
        · rfl
        · exact absurd hb h
      rw [jsInsert_cons_neg hyx, List.pairwise_cons]
      constructor
      · intro z hz
        rcases List.mem_cons.mp hz with rfl | hz2
        · exact hyx
        · -- z sits after y, which does not strictly precede x
          obtain ⟨yv, hyv⟩ := Option.isSome_iff_exists.mp (hl2 y (List.mem_cons_self y ys))
          obtain ⟨zv, hzv⟩ := Option.isSome_iff_exists.mp
            (hl2 z (List.mem_cons_of_mem y hz2))
          have hzy := hy z hz2
          rcases hx : x.2 with _ | xv
          · simp [simBefore, hzv, hx]
          · simp [simBefore, hyv, hx] at hyx
            simp [simBefore, hzv, hyv] at hzy
            simp [simBefore, hzv, hx]
            exact le_trans hzy hyx
      · exact List.Pairwise.cons hy hys

/-- The modelled JS sort of finite-similarity entries is sorted descending:
no later entry strictly precedes an earlier one. -/
theorem jsSortDesc_pairwise {l : List Scored} (hl : ∀ p ∈ l, p.2.isSome = true) :
    List.Pairwise (fun a b => simBefore b a = false) (jsSortDesc l) := by
  induction l with
  | nil => simp [jsSortDesc]
  | cons x xs ih =>
    have hxs : ∀ p ∈ xs, p.2.isSome = true :=
      fun p hp => hl p (List.mem_cons_of_mem x hp)
    have hsorted : ∀ p ∈ jsSortDesc xs, p.2.isSome = true :=
      fun p hp => hxs p ((jsSortDesc_perm xs).mem_iff.mp hp)
    exact jsInsert_pairwise hsorted (ih hxs)

/-- Stability of the modelled JS sort: two entries with equal similarity keep
their relative order. -/
theorem jsSortDesc_stable {p q : Scored} (hpq : p.2 = q.2) :
    ∀ {l : List Scored}, [p, q].Sublist l → [p, q].Sublist (jsSortDesc l) := by
  intro l
  induction l with
  | nil => intro hsub; simp at hsub
  | cons x xs ih =>
    intro hsub
    cases hsub with
    | cons _ h =>
      have h2 := ih h
      obtain ⟨l₁, l₂, he, hi, _⟩ := jsInsert_decomp x (jsSortDesc xs)
      have hstep : (jsSortDesc xs).Sublist (jsInsert x (jsSortDesc xs)) := by
        rw [hi, he]
        exact List.Sublist.append_left (List.sublist_cons_self x l₂) l₁
      exact h2.trans hstep
    | cons₂ _ h =>
      -- the head is p itself; q occurs in the tail
      have hqmem : q ∈ jsSortDesc xs :=
        (jsSortDesc_perm xs).mem_iff.mpr (h.subset (List.mem_singleton_self q))
      obtain ⟨l₁, l₂, he, hi, hall⟩ := jsInsert_decomp p (jsSortDesc xs)
      have hqp : simBefore q p = false := by
        rcases hv : p.2 with _ | pv
        · have hv2 : q.2 = none := by rw [← hpq, hv]
          simp [simBefore, hv2]
        · have hv2 : q.2 = some pv := by rw [← hpq, hv]
          simp [simBefore, hv, hv2]
      have hq2 : q ∈ l₂ := by
        have hmem2 := hqmem
        rw [he] at hmem2
        rcases List.mem_append.mp hmem2 with h1 | h2
        · rw [hall q h1] at hqp
          exact absurd hqp (by simp)
        · exact h2
      show [p, q].Sublist (jsInsert p (jsSortDesc xs))
      rw [hi]
      have s1 : [p, q].Sublist (p :: l₂) :=
        List.Sublist.cons₂ p (List.singleton_sublist.mpr hq2)
      exact s1.trans (List.sublist_append_right l₁ (p :: l₂))

/-- Cosine similarity of the unit vector with itself is 1 in the model. -/
theorem cosineSimilarity_unit_same :
    cosineSimilarity [(1 : ℚ), 0] [(1 : ℚ), 0] = some 1 := by
  norm_num [cosineSimilarity, dotFold, normFold, ratSqrt, isqrt, isqrtAux,
    List.range_succ]

/-- Cosine similarity of the two unit basis vectors is 0 in the model. -/
theorem cosineSimilarity_unit_orth :
    cosineSimilarity [(1 : ℚ), 0] [(0 : ℚ), 1] = some 0 := by
  norm_num [cosineSimilarity, dotFold, normFold, ratSqrt, isqrt, isqrtAux,
    List.range_succ]

/-- Cosine similarity of the one-dimensional unit vector with itself. -/
theorem cosineSimilarity_one_one :
    cosineSimilarity [(1 : ℚ)] [(1 : ℚ)] = some 1 := by
  norm_num [cosineSimilarity, dotFold, normFold, ratSqrt, isqrt, isqrtAux,
    List.range_succ]

/-- Claim C2 (amended): with the model ready, `vectorSearch` scores every
remaining embedded entry by cosine similarity, sorts the scored list
descending by score with the engine's stable sort — ties keep the fetched
order, they are NOT broken by more-recent `createdAt` — and truncates to the
first `topK`.  Stated for runs whose scores are all finite (with a `NaN`
score the JS comparator is inconsistent and the sort order is
unspecified). -/
theorem vectorSearch_ranking (embedOf : String → List ℚ) (qt : String)
    (rows : List Transcript) (topK : Nat) (df : Option (List FilterSpec))
    (hfin : ∀ p ∈ scoredEntries (embedOf qt) rows df, p.2.isSome = true) :
    vectorSearch true embedOf qt rows topK df =
      Except.ok ((jsSortDesc (scoredEntries (embedOf qt) rows df)).take topK) ∧
    (jsSortDesc (scoredEntries (embedOf qt) rows df)).Perm
      (scoredEntries (embedOf qt) rows df) ∧
    List.Pairwise (fun a b => simBefore b a = false)
      ((jsSortDesc (scoredEntries (embedOf qt) rows df)).take topK) ∧
    ((jsSortDesc (scoredEntries (embedOf qt) rows df)).take topK).length =
      min topK (scoredEntries (embedOf qt) rows df).length ∧
    (∀ p q, p.2 = q.2 → [p, q].Sublist (scoredEntries (embedOf qt) rows df) →
      [p, q].Sublist (jsSortDesc (scoredEntries (embedOf qt) rows df))) := by
  refine ⟨rfl, jsSortDesc_perm _, ?_, ?_, ?_⟩
  · exact (jsSortDesc_pairwise hfin).sublist (List.take_sublist topK _)
  · rw [List.length_take, (jsSortDesc_perm _).length_eq]
  · intro p q hpq hsub
    exact jsSortDesc_stable hpq hsub

/-- Claim C2 witness: a ready search over two embedded rows with distinct
finite scores. -/
theorem vectorSearch_ranking_witness :
    List.Pairwise (fun a b => simBefore b a = false)
      ((jsSortDesc (scoredEntries ((fun _ => [(1 : ℚ), 0]) "coffee")
        [⟨1, "fa", "ka", "ta", 100, 1, some [1, 0]⟩,
         ⟨2, "fb", "kb", "tb", 200, 2, some [0, 1]⟩] none)).take 5) :=
  (vectorSearch_ranking (fun _ => [(1 : ℚ), 0]) "coffee"
    [⟨1, "fa", "ka", "ta", 100, 1, some [1, 0]⟩,
     ⟨2, "fb", "kb", "tb", 200, 2, some [0, 1]⟩] 5 none
    (by
      simp [scoredEntries, cosineSimilarity_unit_same, cosineSimilarity_unit_orth])).2.2.1

/-- Claim C2 counterexample: two entries with equal similarity 1 to the query
and `createdAt` 100 and 200, fetched older-first.  The stable sort keeps the
older entry first, so the result is NOT ordered by more-recent `createdAt`
first among ties, contradicting the claimed tie-break. -/
theorem vectorSearch_tie_cex :
    vectorSearch true (fun _ => [(1 : ℚ)]) "q"
      [⟨1, "fa", "ka", "ta", 100, 1, some [1]⟩,
       ⟨2, "fb", "kb", "tb", 200, 1, some [1]⟩] 2 none =
      Except.ok [(⟨1, "fa", "ka", "ta", 100, 1, some [1]⟩, some 1),
                 (⟨2, "fb", "kb", "tb", 200, 1, some [1]⟩, some 1)] := by
  have h1 : scoredEntries ((fun _ => [(1 : ℚ)]) "q")
      [⟨1, "fa", "ka", "ta", 100, 1, some [1]⟩,
       ⟨2, "fb", "kb", "tb", 200, 1, some [1]⟩] none =
      [(⟨1, "fa", "ka", "ta", 100, 1, some [1]⟩, some 1),
       (⟨2, "fb", "kb", "tb", 200, 1, some [1]⟩, some 1)] := by
    simp [scoredEntries, cosineSimilarity_one_one]
  show Except.ok ((jsSortDesc (scoredEntries _ _ _)).take 2) = _
  rw [h1]
  simp [jsSortDesc, jsInsert, simBefore]

/-- Claim C6 (amended): while the embedding model is not ready, the text
handler short-circuits EVERY query — period kinds included — with the
"still loading" notice, and `vectorSearch` itself throws the not-ready
error. -/
theorem notReady_blocks_all (env : BotEnv) (q : String) (c : Classification)
    (h : env.ready = false) :
    handleText env q c = HandlerResult.modelLoading ∧
    (∀ (embedOf : String → List ℚ) (qt : String) (rows : List Transcript)
        (topK : Nat) (df : Option (List FilterSpec)),
      vectorSearch false embedOf qt rows topK df =
        Except.error SearchError.notReady) := by
  constructor
  · simp [handleText, h]
  · intro embedOf qt rows topK df
    rfl

/-- Claim C6 witness: a not-ready environment blocks a period query. -/
theorem notReady_blocks_all_witness :
    handleText ⟨false, fun _ => [], [], [], [], [], []⟩ "hello"
      ⟨"today", none, none⟩ = HandlerResult.modelLoading :=
  (notReady_blocks_all ⟨false, fun _ => [], [], [], [], [], []⟩ "hello"
    ⟨"today", none, none⟩ rfl).1

/-- Claim C6 counterexample: with the model not ready and a non-empty
today-bucket, a query classified `today` is answered with the loading notice,
not with the period fetch results the claim promises. -/
theorem periodQuery_blocked_cex :
    handleText ⟨false, fun _ => [], [⟨1, "f", "k", "t", 100, 1, none⟩], [], [], [], []⟩
      "what did I say today?" ⟨"today", none, none⟩ = HandlerResult.modelLoading ∧
    handleText ⟨false, fun _ => [], [⟨1, "f", "k", "t", 100, 1, none⟩], [], [], [], []⟩
      "what did I say today?" ⟨"today", none, none⟩ ≠
      HandlerResult.answer [⟨1, "f", "k", "t", 100, 1, none⟩] := by
  exact ⟨rfl, by simp [handleText]⟩

/-- Claim C7: with the model ready, a classification of kind
today/week/month/year dispatches to the matching period fetch — the query
text, `searchTerms` and `dateFilter` are all ignored — and any other kind
runs `vectorSearch` on the resolved search terms (the raw query when
`searchTerms` is falsy) with the fixed default `topK = 5` and the
classification's date filter. -/
theorem retrieval_dispatch (env : BotEnv) (q : String) (c : Classification)
    (h : env.ready = true) :
    (c.type = "today" →
      handleText env q c =
        (if env.today.isEmpty then HandlerResult.noResults
         else HandlerResult.answer env.today) ∧
      ∀ q2 c2, c2.type = "today" → handleText env q2 c2 = handleText env q c) ∧
    (c.type = "week" →
      handleText env q c =
        (if env.week.isEmpty then HandlerResult.noResults
         else HandlerResult.answer env.week) ∧
      ∀ q2 c2, c2.type = "week" → handleText env q2 c2 = handleText env q c) ∧
    (c.type = "month" →
      handleText env q c =
        (if env.month.isEmpty then HandlerResult.noResults
         else HandlerResult.answer env.month) ∧
      ∀ q2 c2, c2.type = "month" → handleText env q2 c2 = handleText env q c) ∧
    (c.type = "year" →
      handleText env q c =
        (if env.year.isEmpty then HandlerResult.noResults
         else HandlerResult.answer env.year) ∧
      ∀ q2 c2, c2.type = "year" → handleText env q2 c2 = handleText env q c) ∧
    (c.type ≠ "today" → c.type ≠ "week" → c.type ≠ "month" → c.type ≠ "year" →
      handleText env q c =
        (match (vectorSearch env.ready env.embedOf (jsOrString c.searchTerms q)
            env.rows 5 c.dateFilter).map (List.map Prod.fst) with
         | Except.error _ => HandlerResult.failure
         | Except.ok rel =>
            if rel.isEmpty then HandlerResult.noResults
            else HandlerResult.answer rel)) := by
  refine ⟨?_, ?_, ?_, ?_, ?_⟩
  · intro ht
    refine ⟨by simp [handleText, h, ht], ?_⟩
    intro q2 c2 ht2
    simp [handleText, h, ht, ht2]
  · intro ht
    refine ⟨by simp [handleText, h, ht], ?_⟩
    intro q2 c2 ht2
    simp [handleText, h, ht, ht2]
  · intro ht
    refine ⟨by simp [handleText, h, ht], ?_⟩
    intro q2 c2 ht2
    simp [handleText, h, ht, ht2]
  · intro ht
    refine ⟨by simp [handleText, h, ht], ?_⟩
    intro q2 c2 ht2
    simp [handleText, h, ht, ht2]
  · intro h1 h2 h3 h4
    simp [handleText, h, h1, h2, h3, h4]

/-- Claim C7 witness: a `today` classification carrying (ignored) search
terms and a date filter dispatches to the today fetch. -/
theorem retrieval_dispatch_witness :
    handleText ⟨true, fun _ => [], [⟨1, "f", "k", "t", 100, 1, none⟩], [], [], [], []⟩
      "q" ⟨"today", some "ignored", some [⟨some "2026-01-15", none, none⟩]⟩ =
      (if ([(⟨1, "f", "k", "t", 100, 1, none⟩ : Transcript)]).isEmpty
       then HandlerResult.noResults
       else HandlerResult.answer [⟨1, "f", "k", "t", 100, 1, none⟩]) :=
  ((retrieval_dispatch ⟨true, fun _ => [], [⟨1, "f", "k", "t", 100, 1, none⟩],
    [], [], [], []⟩ "q"
    ⟨"today", some "ignored", some [⟨some "2026-01-15", none, none⟩]⟩ rfl).1 rfl).1

/-- Claim C8: submitting a fresh voice message stores it with a 👍 reaction;
submitting the same source message again is a no-op acknowledged with ✅ —
the stored rows are unchanged and exactly one row carries the source
message id. -/
theorem voice_idempotent (db : List Transcript) (msg : VoiceMsg)
    (ext1 ext2 : VoiceSideEffects)
    (h1 : ∀ r ∈ db, r.voice_file_id ≠ msg.file_id)
    (h2 : ∀ r ∈ db, r.message_id ≠ msg.message_id) :
    (handleVoice db msg ext1).2 = Reaction.thumbsUp ∧
    (handleVoice (handleVoice db msg ext1).1 msg ext2).1 =
      (handleVoice db msg ext1).1 ∧
    (handleVoice (handleVoice db msg ext1).1 msg ext2).2 = Reaction.check ∧
    ((handleVoice (handleVoice db msg ext1).1 msg ext2).1.filter
      (fun r => r.message_id == msg.message_id)).length = 1 := by
  have hany1 : db.any (fun r => r.voice_file_id == msg.file_id) = false := by
    rw [List.any_eq_false]
    intro r hr
    simp [h1 r hr]
  have hany2 : db.any (fun r => r.message_id == msg.message_id) = false := by
    rw [List.any_eq_false]
    intro r hr
    simp [h2 r hr]
  have hfirst : handleVoice db msg ext1 =
      (db ++ [⟨msg.message_id, msg.file_id, ext1.r2Key, ext1.transcript, msg.date,
               msg.duration, ext1.embedding⟩], Reaction.thumbsUp) := by
    simp [handleVoice, hany1, hany2]
  have hany3 : (db ++ [(⟨msg.message_id, msg.file_id, ext1.r2Key, ext1.transcript,
      msg.date, msg.duration, ext1.embedding⟩ : Transcript)]).any
      (fun r => r.voice_file_id == msg.file_id) = true := by
    simp
  have hsecond : handleVoice (db ++ [⟨msg.message_id, msg.file_id, ext1.r2Key,
      ext1.transcript, msg.date, msg.duration, ext1.embedding⟩]) msg ext2 =
      (db ++ [⟨msg.message_id, msg.file_id, ext1.r2Key, ext1.transcript, msg.date,
              msg.duration, ext1.embedding⟩], Reaction.check) := by
    simp [handleVoice, hany3]
  refine ⟨?_, ?_, ?_, ?_⟩
  · rw [hfirst]
  · rw [hfirst, hsecond]
  · rw [hfirst, hsecond]
  · rw [hfirst, hsecond]
    have hnil : db.filter (fun r => r.message_id == msg.message_id) = [] := by
      rw [List.filter_eq_nil_iff]
      intro r hr
      simp [h2 r hr]
    simp [List.filter_append, hnil]

/-- Claim C8 witness: a fresh message into an empty store, submitted twice. -/
theorem voice_idempotent_witness :
    (handleVoice [] ⟨10, "file10", 1700000000, 7⟩ ⟨"k", "hello", none⟩).2 =
      Reaction.thumbsUp ∧
    (handleVoice (handleVoice [] ⟨10, "file10", 1700000000, 7⟩
        ⟨"k", "hello", none⟩).1 ⟨10, "file10", 1700000000, 7⟩
        ⟨"k2", "hello2", none⟩).1 =
      (handleVoice [] ⟨10, "file10", 1700000000, 7⟩ ⟨"k", "hello", none⟩).1 ∧
    (handleVoice (handleVoice [] ⟨10, "file10", 1700000000, 7⟩
        ⟨"k", "hello", none⟩).1 ⟨10, "file10", 1700000000, 7⟩
        ⟨"k2", "hello2", none⟩).2 = Reaction.check ∧
    ((handleVoice (handleVoice [] ⟨10, "file10", 1700000000, 7⟩
        ⟨"k", "hello", none⟩).1 ⟨10, "file10", 1700000000, 7⟩
        ⟨"k2", "hello2", none⟩).1.filter
      (fun r => r.message_id == (10 : Int))).length = 1 :=
  voice_idempotent [] ⟨10, "file10", 1700000000, 7⟩ ⟨"k", "hello", none⟩
    ⟨"k2", "hello2", none⟩ (by simp) (by simp)

/-- A list of four bytes is literally four bytes. -/
theorem exists_four_of_length_eq {l : List Nat} (h : l.length = 4) :
    ∃ a b c d, l = [a, b, c, d] := by
  cases l with
  | nil => simp at h
  | cons a l1 =>
    cases l1 with
    | nil => simp at h
    | cons b l2 =>
      cases l2 with
      | nil => simp at h
      | cons c l3 =>
        cases l3 with
        | nil => simp at h
        | cons d l4 =>
          cases l4 with
          | nil => exact ⟨a, b, c, d, rfl⟩
          | cons e l5 => simp [List.length_cons] at h

/-- Claim C9: for any binary32 little-endian codec (4-byte encodings, with
reading back a written value giving the 32-bit rounding of that value),
decoding the encoded buffer returns the vector with each component rounded to
32-bit precision, and the length is preserved — the round trip is the
identity up to 32-bit float rounding. -/
theorem embedding_roundtrip (enc : ℚ → List Nat) (dec : List Nat → ℚ)
    (round32 : ℚ → ℚ)
    (hlen : ∀ x, (enc x).length = 4)
    (hcodec : ∀ x, dec (enc x) = round32 x) (v : List ℚ) :
    bufferToEmbedding dec (embeddingToBuffer enc v) = some (v.map round32) ∧
    (v.map round32).length = v.length := by
  constructor
  · induction v with
    | nil => rfl
    | cons x tl ih =>
      obtain ⟨a, b, c, d, habcd⟩ := exists_four_of_length_eq (hlen x)
      have hflat : embeddingToBuffer enc (x :: tl) =
          a :: b :: c :: d :: embeddingToBuffer enc tl := by
        simp [embeddingToBuffer, habcd]
      rw [hflat]
      have hstep : bufferToEmbedding dec
          (a :: b :: c :: d :: embeddingToBuffer enc tl) =
          match bufferToEmbedding dec (embeddingToBuffer enc tl) with
          | some tl2 => some (dec [a, b, c, d] :: tl2)
          | none => none := rfl
      rw [hstep, ih]
      have hdecx : dec [a, b, c, d] = round32 x := by
        rw [← habcd, hcodec]
      simp [hdecx]
  · simp

/-- Claim C9 witness: a degenerate codec satisfying the interface hypotheses,
applied to a two-element vector. -/
theorem embedding_roundtrip_witness :
    bufferToEmbedding (fun _ => (0 : ℚ))
        (embeddingToBuffer (fun _ => [0, 0, 0, 0]) [(5 : ℚ)/2, 3]) =
      some (([(5 : ℚ)/2, 3]).map (fun _ => (0 : ℚ))) ∧
    (([(5 : ℚ)/2, 3]).map (fun _ => (0 : ℚ))).length =
      ([(5 : ℚ)/2, 3] : List ℚ).length :=
  embedding_roundtrip (fun _ => [0, 0, 0, 0]) (fun _ => 0) (fun _ => 0)
    (fun _ => rfl) (fun _ => rfl) [5/2, 3]
